import Mathlib

/-!
Verification of the credential-brokering core of the
gitlab-harbor-token-broker repository, shallowly embedded in Lean 4.
-/

namespace Broker

/-- An access action submitted to the registry
(`Access` in internal/harbor/client.go). -/
structure Access where
  resource : String
  action : String
deriving DecidableEq, Repr

/-- `mapPermissionToAccess` from internal/harbor/client.go: maps the broker
permission model to Harbor access actions. -/
def mapPermissionToAccess (permission : String) : List Access :=
  match permission with
  | "read" => [⟨"repository", "pull"⟩]
  | "write" => [⟨"repository", "pull"⟩, ⟨"repository", "push"⟩]
  | "read-write" => [⟨"repository", "pull"⟩, ⟨"repository", "push"⟩]
  | _ => []

/-- `durationDays` in `CreateRobotAccount` (internal/harbor/client.go):
`float64(ttlMinutes) / (60.0 * 24.0)`, modelled exactly over ℚ (the float
computation is exact at these magnitudes and rounding directions). -/
def durationDays (ttlMinutes : ℕ) : ℚ :=
  (ttlMinutes : ℚ) / (60 * 24)

/-- The `Duration` field computed in `CreateRobotAccount`
(internal/harbor/client.go lines 137-143): durations under one day are
forced to 1; otherwise `int64(durationDays + 0.5)` (truncation toward zero,
which on values `≥ 1.5` is the floor). -/
def robotDuration (ttlMinutes : ℕ) : ℤ :=
  if durationDays ttlMinutes < 1 then 1
  else Int.floor (durationDays ttlMinutes + 1/2)

/-- A Harbor project (`Project` in internal/harbor/client.go). -/
structure Project where
  projectID : ℤ
  name : String
deriving DecidableEq, Repr

/-- A robot-account permission entry (`Permission` in
internal/harbor/client.go). -/
structure HarborPermission where
  kind : String
  namespaceName : String
  access : List Access
deriving DecidableEq, Repr

/-- The robot-account creation payload (`CreateRobotRequest` in
internal/harbor/client.go). -/
structure CreateRobotRequest where
  name : String
  description : String
  duration : ℤ
  level : String
  permissions : List HarborPermission
deriving DecidableEq, Repr

/-- A minted robot account (`RobotAccount` in internal/harbor/client.go);
`expiresAt` is an absolute instant in Unix seconds. -/
structure Robot where
  id : ℤ
  name : String
  secret : String
  expiresAt : ℤ
deriving DecidableEq, Repr

/-- The fields of the registry's decoded `201 Created` response body that
`CreateRobotAccount` keeps (id, name, secret; the response's own expiry field
is overwritten by the client before returning). -/
structure RegistryReply where
  id : ℤ
  name : String
  secret : String
deriving DecidableEq, Repr

/-- The payload built inside `CreateRobotAccount`
(internal/harbor/client.go lines 121-143): description and level are fixed,
the duration is the minutes→days conversion, and the permission list is the
single project-scoped entry with the mapped access actions. -/
def buildRobotRequest (projectName robotName permission : String)
    (ttlMinutes : ℕ) : CreateRobotRequest :=
  { name := robotName
    description := "Temporary CI robot account"
    duration := robotDuration ttlMinutes
    level := "project"
    permissions := [⟨"project", projectName, mapPermissionToAccess permission⟩] }

/-- `CreateRobotAccount` from internal/harbor/client.go. The two network
round-trips (project lookup, robot-creation POST) are abstracted as explicit
outcome arguments; `now` is the instant `time.Now()` observed at line 178.
On success the returned robot's `expiresAt` is `now + ttlMinutes` minutes,
computed from the configured minutes, not from the submitted day-granularity
duration. -/
def CreateRobotAccount (getProjectResult : Except String Project)
    (postResult : CreateRobotRequest → Except String RegistryReply)
    (projectName robotName permission : String) (ttlMinutes : ℕ) (now : ℤ) :
    Except String Robot :=
  match getProjectResult with
  | .error e => .error ("failed to get project: " ++ e)
  | .ok _project =>
    let request := buildRobotRequest projectName robotName permission ttlMinutes
    match postResult request with
    | .error e => .error e
    | .ok reply =>
      .ok { id := reply.id
            name := reply.name
            secret := reply.secret
            expiresAt := now + (ttlMinutes : ℤ) * 60 }

/-! ## Policy engine (internal/policy: engine.go and its store-backed
revision) -/

/-- A configuration policy rule (`config.PolicyRule` as consumed by the
engine). -/
structure ConfigPolicyRule where
  gitLabProject : String
  harborProjects : List String
  allowedPerms : List String
deriving DecidableEq, Repr

/-- A store-backed policy rule (`policy.PolicyRule`). -/
structure PolicyRule where
  gitLabProject : String
  harborProjects : List String
  allowedPermissions : List String
deriving DecidableEq, Repr

/-- `contains` from internal/policy/engine.go. -/
def containsStr : List String → String → Bool
  | [], _ => false
  | s :: rest, item => if s = item then true else containsStr rest item

/-- The denial message produced when no matching (project, scope) rule is
found (engine.go line 41 and the store path's scope check). -/
def noPolicyMsg (gitlabProject harborProject : String) : String :=
  "no policy found for GitLab project '" ++ gitlabProject ++
    "' and Harbor project '" ++ harborProject ++ "'"

/-- The denial message produced when the permission is not in the rule's
allowed set. -/
def permNotAllowedMsg (permission : String) : String :=
  "permission '" ++ permission ++ "' not allowed for this project"

/-- The config-rule loop of `AuthorizeRequest`: scan rules in order; a rule
for the caller whose scope set misses the target is skipped (`continue`); a
matching rule with a missing permission denies immediately; falling off the
end denies with the no-policy message. -/
def authorizeConfigRules : List ConfigPolicyRule → String → String → String →
    Except String Unit
  | [], g, h, _ => .error (noPolicyMsg g h)
  | rule :: rest, g, h, p =>
    if rule.gitLabProject = g then
      if ¬ containsStr rule.harborProjects h then
        authorizeConfigRules rest g h p
      else if ¬ containsStr rule.allowedPerms p then
        .error (permNotAllowedMsg p)
      else .ok ()
    else authorizeConfigRules rest g h p

/-- The policy engine (`Engine`): either a list of config rules or a
database-backed store, modelled as the store's lookup response per caller
project. -/
structure Engine where
  rules : List ConfigPolicyRule
  policyStore : Option (String → Except String PolicyRule)

/-- `AuthorizeRequest` (store-backed revision of internal/policy/engine.go):
with a store, fetch the caller's rule, deny with the no-policy message when
the scope is absent and with the permission message when the permission is
absent; without a store, run the config-rule loop. -/
def AuthorizeRequest (e : Engine) (gitlabProject harborProject permission : String) :
    Except String Unit :=
  match e.policyStore with
  | some store =>
    match store gitlabProject with
    | .error msg => .error ("failed to fetch policy: " ++ msg)
    | .ok rule =>
      if ¬ containsStr rule.harborProjects harborProject then
        .error (noPolicyMsg gitlabProject harborProject)
      else if ¬ containsStr rule.allowedPermissions permission then
        .error (permNotAllowedMsg permission)
      else .ok ()
  | Option.none => authorizeConfigRules e.rules gitlabProject harborProject permission

/-- `ValidatePermission` from internal/policy/engine.go. -/
def ValidatePermission (permission : String) : Except String Unit :=
  match permission with
  | "read" => .ok ()
  | "write" => .ok ()
  | "read-write" => .ok ()
  | _ => .error "invalid permission: must be 'read', 'write', or 'read-write'"

/-! ## JWT validation (internal/jwt/validator.go) -/

/-- The signing algorithm declared in a token header. The Go code's type
assertion `token.Method.(*jwt.SigningMethodRSA)` matches exactly RS256,
RS384 and RS512; "none", HMAC, ECDSA and RSA-PSS methods are different
types and fail the assertion. -/
inductive Alg
  | RS256 | RS384 | RS512 | PS256 | ES256 | HS256 | algNone
deriving DecidableEq, Repr

/-- Whether an algorithm is handled by `*jwt.SigningMethodRSA`. -/
def Alg.isRSA : Alg → Bool
  | .RS256 => true
  | .RS384 => true
  | .RS512 => true
  | _ => false

/-- GitLab CI JWT claims (`Claims` in internal/jwt/validator.go);
`expiresAt` is the registered `exp` claim in Unix seconds, absent when the
token carries none. -/
structure Claims where
  issuer : String
  audience : List String
  expiresAt : Option ℤ
  projectPath : String
  refPath : String
  pipelineID : String
  jobID : String
deriving DecidableEq, Repr

/-- A parsed token as the jwt library sees it: declared algorithm, optional
`kid` header, a signature-verification outcome as a function of the raw key
material (keys are modelled as opaque ℤ values), and the decoded claims. -/
structure Token where
  alg : Alg
  kid : Option String
  sigValid : ℤ → Bool
  claims : Claims

/-- A JWKS key set: `kid ↦` outcome of extracting the raw key
(`key.Raw` can fail). -/
def KeySet := List (String × Except String ℤ)

/-- `LookupKeyID` on the modelled key set. -/
def lookupKeyID (ks : KeySet) (kid : String) : Option (Except String ℤ) :=
  match ks with
  | [] => Option.none
  | (k, v) :: rest => if k = kid then some v else lookupKeyID rest kid

/-- The distinct internal failure reasons of token validation. -/
inductive JwtError
  | refreshFailed (msg : String)
  | badAlg
  | noKid
  | keyNotFound
  | rawKeyFailed (msg : String)
  | badSignature
  | invalidClaims
  | badIssuer (issuer : String)
  | badAudience
  | expired
deriving DecidableEq, Repr

/-- The validator's mutable state (`Validator` in
internal/jwt/validator.go): configured audience and trusted issuers, the
cached key set (absent until first successful fetch), and the instant of the
last successful fetch, in Unix seconds. -/
structure ValidatorState where
  audience : String
  issuers : List String
  keySet : Option KeySet
  lastFetch : ℤ

/-- The staleness test of `refreshJWKS`: refresh when no set is cached or
the cached set is older than one hour. -/
def needsRefresh (v : ValidatorState) (now : ℤ) : Bool :=
  v.keySet.isNone || decide (now - v.lastFetch > 3600)

/-- `refreshJWKS` from internal/jwt/validator.go. The network fetch is
abstracted as an explicit outcome. A needed refresh whose fetch fails
returns an error — the cached set is not consulted on this path. -/
def refreshJWKS (v : ValidatorState) (now : ℤ)
    (fetch : Except String KeySet) : Except String ValidatorState :=
  if ¬ needsRefresh v now then .ok v
  else
    match fetch with
    | .error msg => .error ("failed to fetch JWKS: " ++ msg)
    | .ok ks => .ok { v with keySet := some ks, lastFetch := now }

/-- `isValidIssuer` from internal/jwt/validator.go. -/
def isValidIssuer (v : ValidatorState) (issuer : String) : Bool :=
  containsStr v.issuers issuer

/-- The behaviour of `jwt.ParseWithClaims` with the code's keyfunc
(internal/jwt/validator.go lines 49-80): reject non-RSA signing methods,
require a `kid`, look it up in the key set, extract the raw key, verify the
signature, then apply the library's registered-claims validation (an `exp`
claim, when present, must be strictly in the future). -/
def parseWithClaims (tok : Token) (ks : KeySet) (now : ℤ) :
    Except JwtError Claims :=
  if ¬ tok.alg.isRSA then .error .badAlg
  else
    match tok.kid with
    | Option.none => .error .noKid
    | some kid =>
      match lookupKeyID ks kid with
      | Option.none => .error .keyNotFound
      | some (.error msg) => .error (.rawKeyFailed msg)
      | some (.ok rawKey) =>
        if ¬ tok.sigValid rawKey then .error .badSignature
        else
          match tok.claims.expiresAt with
          | some exp => if ¬ (now < exp) then .error .invalidClaims
                        else .ok tok.claims
          | Option.none => .ok tok.claims

/-- `ValidateToken` from internal/jwt/validator.go: refresh the JWKS (a
refresh failure aborts the validation), parse and verify the token against
the refreshed set, then check issuer membership, audience membership, and
that an expiry exists and is not in the past. -/
def ValidateToken (v : ValidatorState) (tok : Token) (now : ℤ)
    (fetch : Except String KeySet) : Except JwtError Claims :=
  match refreshJWKS v now fetch with
  | .error msg => .error (.refreshFailed msg)
  | .ok v' =>
    match parseWithClaims tok (v'.keySet.getD []) now with
    | .error e => .error e
    | .ok claims =>
      if ¬ isValidIssuer v' claims.issuer then .error (.badIssuer claims.issuer)
      else if ¬ containsStr claims.audience v'.audience then .error .badAudience
      else
        match claims.expiresAt with
        | Option.none => .error .expired
        | some exp => if exp < now then .error .expired else .ok claims

/-! ## HTTP handler (internal/handler/handler.go) -/

/-- The decoded body of a `/token` request (`TokenRequest`). -/
structure TokenRequest where
  harborProject : String
  permissions : String
deriving DecidableEq, Repr

/-- An inbound HTTP request as `HandleToken` consumes it: the method, the
`Authorization` header (`""` when absent, as `Header.Get` returns), and the
JSON-decoded body (`none` when decoding fails). -/
structure HttpRequest where
  method : String
  authHeader : String
  body : Option TokenRequest

/-- An audit record as emitted through the logger
(internal/logging/logger.go): `AuditTokenIssued` receives the caller
project, scope, permission, robot id, robot name, expiry and pipeline/job
identifiers; `AuditRequestDenied` receives the caller project, scope,
permission and the denial reason. -/
inductive AuditRecord
  | issued (gitlabProject harborProject permission : String) (robotID : ℤ)
      (robotName : String) (expiresAt : ℤ) (pipelineID jobID : String)
  | denied (gitlabProject harborProject permission reason : String)
deriving DecidableEq, Repr

/-- A response body: either an `ErrorResponse` or a `TokenResponse`
(username, password, expiry instant). -/
inductive RespBody
  | err (message : String)
  | token (username password : String) (expiresAt : ℤ)
deriving DecidableEq, Repr

/-- The observable result of one `HandleToken` run: HTTP status, response
body, the audit records written, and whether the token verifier was
invoked. -/
structure HandlerResult where
  status : ℕ
  body : RespBody
  audits : List AuditRecord
  verifierInvoked : Bool
deriving DecidableEq, Repr

/-- The handler's collaborators and configuration: the JWT validator's
result per token string, the policy engine's decision, the Harbor client's
mint outcome per (project, robot name, permission, ttl), the configured
robot TTL in minutes, and the current Unix time. -/
structure Env where
  validate : String → Except JwtError Claims
  authorize : String → String → String → Except String Unit
  mint : String → String → String → ℕ → Except String Robot
  robotTTL : ℕ
  now : ℤ

/-- The `strings.TrimPrefix(authHeader, "Bearer ")` step of `HandleToken`:
remove a leading "Bearer " when present, otherwise return the header
unchanged (the handler detects the absent prefix by the result comparing
equal to the original header). -/
def trimBearer (s : String) : String :=
  if List.isPrefixOf "Bearer ".data s.data then String.mk (s.data.drop 7) else s

/-- `HandleToken` from internal/handler/handler.go, in source order: method
check, Authorization header presence, Bearer prefix, JWT validation, body
decoding, required-field checks, permission-format check, policy decision
(a deny writes one denied audit record), robot-account creation (a failure
writes none), and on success one issued audit record plus the credential
response. -/
def HandleToken (env : Env) (r : HttpRequest) : HandlerResult :=
  if r.method ≠ "POST" then
    ⟨405, .err "method not allowed", [], false⟩
  else if r.authHeader = "" then
    ⟨401, .err "missing authorization header", [], false⟩
  else if trimBearer r.authHeader = r.authHeader then
    ⟨401, .err "invalid authorization header format", [], false⟩
  else
    match env.validate (trimBearer r.authHeader) with
    | .error _ => ⟨401, .err "invalid or expired token", [], true⟩
    | .ok claims =>
      match r.body with
      | Option.none => ⟨400, .err "invalid request body", [], true⟩
      | some req =>
        if req.harborProject = "" then
          ⟨400, .err "harbor_project is required", [], true⟩
        else if req.permissions = "" then
          ⟨400, .err "permissions is required", [], true⟩
        else
          match ValidatePermission req.permissions with
          | .error msg => ⟨400, .err msg, [], true⟩
          | .ok _ =>
            match env.authorize claims.projectPath req.harborProject req.permissions with
            | .error reason =>
              ⟨403, .err "access denied by policy",
                [.denied claims.projectPath req.harborProject req.permissions reason],
                true⟩
            | .ok _ =>
              match env.mint req.harborProject
                  ("ci-temp-" ++ claims.jobID ++ "-" ++ toString env.now)
                  req.permissions env.robotTTL with
              | .error _ =>
                ⟨500, .err "failed to create credentials", [], true⟩
              | .ok robot =>
                ⟨200, .token robot.name robot.secret robot.expiresAt,
                  [.issued claims.projectPath req.harborProject req.permissions
                    robot.id robot.name robot.expiresAt claims.pipelineID claims.jobID],
                  true⟩

/-- The outcome tag of an audit record. -/
inductive RecKind
  | issued
  | denied
deriving DecidableEq, Repr

/-- Tag of an audit record. -/
def AuditRecord.kind : AuditRecord → RecKind
  | .issued .. => .issued
  | .denied .. => .denied

/-- A robot account with its secret blanked; two mint outcomes agree up to
`eraseSecret` exactly when they differ at most in the secret. -/
def eraseSecret (robot : Robot) : Robot :=
  { robot with secret := "" }

/-- A mint outcome with the robot's secret blanked. -/
def secretErased : Except String Robot → Except String Robot
  | .error e => .error e
  | .ok robot => .ok (eraseSecret robot)

/-- Whether a decoded request body is malformed in the sense of the input
validation of `HandleToken`: undecodable, missing scope, missing permission,
or a permission outside the closed set. -/
def malformedBody : Option TokenRequest → Bool
  | Option.none => true
  | some req =>
    req.harborProject == "" || req.permissions == "" ||
      !(ValidatePermission req.permissions).isOk

/-!
## Theorems

The duration computation, re-expressed over ℕ so that it evaluates by
kernel reduction: below 1440 minutes the duration is 1 day, otherwise it is
`⌊ttl/1440 + 1/2⌋ = (2*ttl + 1440) / 2880` (ℕ division).
-/

theorem robotDuration_eq (ttlMinutes : ℕ) :
    robotDuration ttlMinutes =
      if ttlMinutes < 1440 then 1 else ((2 * ttlMinutes + 1440) / 2880 : ℕ) := by
  unfold robotDuration durationDays
  have h60 : ((60 : ℚ) * 24) = ((1440 : ℕ) : ℚ) := by norm_num
  have hcond : ((ttlMinutes : ℚ) / (60 * 24) < 1) ↔ ttlMinutes < 1440 := by
    rw [h60, div_lt_one (by positivity)]
    exact_mod_cast Iff.rfl
  by_cases h : ttlMinutes < 1440
  · simp [hcond, h]
  · have hfloor : ((ttlMinutes : ℚ) / (60 * 24) + 1 / 2) =
        (((2 * ttlMinutes + 1440 : ℕ) : ℚ) / ((2880 : ℕ) : ℚ)) := by
      push_cast
      ring
    simp only [hcond, h, if_false]
    rw [hfloor, Rat.floor_natCast_div_natCast]
    norm_cast

/-- For 1440 minutes or more, the computed duration is the rounding (halves
up) of the fractional day count. -/
theorem robotDuration_round (ttlMinutes : ℕ) (h : 1440 ≤ ttlMinutes) :
    robotDuration ttlMinutes = round (durationDays ttlMinutes) := by
  unfold robotDuration
  have h1 : ¬ durationDays ttlMinutes < 1 := by
    unfold durationDays
    rw [not_lt, le_div_iff₀ (by norm_num : (0:ℚ) < 60 * 24), one_mul]
    exact_mod_cast h
  rw [if_neg h1, round_eq]

/-- C9: the permission-to-native-action mapping sends "read" to exactly
{pull} and both "write" and "read-write" to exactly {pull, push}; in
particular "write" and "read-write" map to the same action set. -/
theorem permission_action_mapping :
    mapPermissionToAccess "read" = [⟨"repository", "pull"⟩] ∧
    mapPermissionToAccess "write" =
      [⟨"repository", "pull"⟩, ⟨"repository", "push"⟩] ∧
    mapPermissionToAccess "read-write" =
      [⟨"repository", "pull"⟩, ⟨"repository", "push"⟩] ∧
    mapPermissionToAccess "write" = mapPermissionToAccess "read-write" :=
  ⟨rfl, rfl, rfl, rfl⟩

/-- C5 counterexample: a configured lifetime of 1500 minutes maps to a
registry duration of 1 day, not the 2 days the claim states
(`int64(1500/1440 + 0.5) = int64(1.541…) = 1`). -/
theorem ttl_rounding_counterexample :
    robotDuration 1500 = 1 ∧ robotDuration 1500 ≠ 2 := by
  rw [robotDuration_eq]
  exact ⟨by decide, by decide⟩

/-- C5 (amended): 5 minutes map to 1 day, 1440 minutes to 1 day, and 1500
minutes to 1 day; in general lifetimes under one day round up to the 1-day
minimum and lifetimes of one day or more round to the nearest whole day
(halves rounding up), the duration submitted in the robot-creation payload
being exactly this conversion. -/
theorem ttl_rounding :
    robotDuration 5 = 1 ∧ robotDuration 1440 = 1 ∧ robotDuration 1500 = 1 ∧
    (∀ ttl : ℕ, ttl < 1440 → robotDuration ttl = 1) ∧
    (∀ ttl : ℕ, 1440 ≤ ttl → robotDuration ttl = round (durationDays ttl)) ∧
    (∀ projectName robotName permission ttl,
      (buildRobotRequest projectName robotName permission ttl).duration =
        robotDuration ttl) := by
  refine ⟨by rw [robotDuration_eq]; decide, by rw [robotDuration_eq]; decide,
    by rw [robotDuration_eq]; decide, ?_, robotDuration_round,
    fun _ _ _ _ => rfl⟩
  intro ttl h
  rw [robotDuration_eq, if_pos h]
  rfl

/-- C5 witness: instantiating the general clauses of `ttl_rounding` at
concrete lifetimes. -/
theorem ttl_rounding_witness :
    robotDuration 100 = 1 ∧ robotDuration 2880 = round (durationDays 2880) :=
  ⟨ttl_rounding.2.2.2.1 100 (by decide), ttl_rounding.2.2.2.2.1 2880 (by decide)⟩

/-- C3 counterexample: a caller with a rule allowing scope "images-a" who
requests scope "images-b" is denied with the very message produced when no
rule exists at all — there is no distinct "scope not allowed" reason. -/
theorem scope_denial_counterexample :
    AuthorizeRequest ⟨[⟨"teamA/app", ["images-a"], ["read"]⟩], Option.none⟩
        "teamA/app" "images-b" "read" =
      .error (noPolicyMsg "teamA/app" "images-b") ∧
    AuthorizeRequest ⟨[⟨"teamA/app", ["images-a"], ["read"]⟩], Option.none⟩
        "teamA/app" "images-b" "read" =
      AuthorizeRequest ⟨[], Option.none⟩ "teamA/app" "images-b" "read" ∧
    noPolicyMsg "teamA/app" "images-b" ≠ "scope not allowed" := by
  refine ⟨rfl, rfl, by decide⟩

/-- C3 (amended): when the caller has a rule but the target scope is outside
its allowed-scope set, `AuthorizeRequest` denies independently of the
permission value, but with the same "no policy found …" reason used when no
rule exists, in both the store-backed and the config-rule paths; no distinct
"scope not allowed" reason exists. -/
theorem scope_denial_uses_no_policy_reason :
    (∀ (rs : List ConfigPolicyRule) (store : String → Except String PolicyRule)
        (g h p : String) (rule : PolicyRule),
      store g = .ok rule → containsStr rule.harborProjects h = false →
      AuthorizeRequest ⟨rs, some store⟩ g h p = .error (noPolicyMsg g h)) ∧
    (∀ (rules : List ConfigPolicyRule) (g h p : String),
      (∀ rule ∈ rules, rule.gitLabProject = g →
        containsStr rule.harborProjects h = false) →
      AuthorizeRequest ⟨rules, Option.none⟩ g h p = .error (noPolicyMsg g h)) := by
  constructor
  · intro rs store g h p rule hstore hmiss
    unfold AuthorizeRequest
    simp only [hstore, hmiss]
    simp
  · intro rules g h p hmiss
    unfold AuthorizeRequest
    induction rules with
    | nil => rfl
    | cons rule rest ih =>
      unfold authorizeConfigRules
      by_cases hg : rule.gitLabProject = g
      · rw [if_pos hg, if_pos]
        · exact ih fun r hr => hmiss r (List.mem_cons_of_mem _ hr)
        · rw [hmiss rule (List.mem_cons_self _ _) hg]
          decide
      · rw [if_neg hg]
        exact ih fun r hr => hmiss r (List.mem_cons_of_mem _ hr)

/-- C3 witness: the two clauses of `scope_denial_uses_no_policy_reason` at a
concrete store, rule set and request. -/
theorem scope_denial_uses_no_policy_reason_witness :
    AuthorizeRequest
        ⟨[], some fun _ => .ok ⟨"teamA/app", ["images-a"], ["read"]⟩⟩
        "teamA/app" "images-b" "write" =
      .error (noPolicyMsg "teamA/app" "images-b") ∧
    AuthorizeRequest ⟨[⟨"teamA/app", ["images-a"], ["read"]⟩], Option.none⟩
        "teamA/app" "images-b" "write" =
      .error (noPolicyMsg "teamA/app" "images-b") :=
  ⟨scope_denial_uses_no_policy_reason.1 []
      (fun _ => .ok ⟨"teamA/app", ["images-a"], ["read"]⟩)
      "teamA/app" "images-b" "write" ⟨"teamA/app", ["images-a"], ["read"]⟩
      rfl (by decide),
    scope_denial_uses_no_policy_reason.2
      [⟨"teamA/app", ["images-a"], ["read"]⟩] "teamA/app" "images-b" "write"
      (by intro rule hr hg; simp at hr; rw [hr]; decide)⟩

/-- C7: for every token whose header declares a signing algorithm outside
the RSA family handled by `*jwt.SigningMethodRSA` (including "none",
HMAC and other schemes), validation fails, and its outcome does not depend
on the signature-verification predicate at all. -/
theorem non_rsa_alg_rejected (v : ValidatorState) (tok : Token) (now : ℤ)
    (fetch : Except String KeySet) (halg : tok.alg.isRSA = false) :
    (ValidateToken v tok now fetch).isOk = false ∧
    (∀ f g : ℤ → Bool,
      ValidateToken v { tok with sigValid := f } now fetch =
        ValidateToken v { tok with sigValid := g } now fetch) := by
  constructor
  · unfold ValidateToken
    cases hr : refreshJWKS v now fetch with
    | error msg => rfl
    | ok v' =>
      unfold parseWithClaims
      rw [halg]
      rfl
  · intro f g
    unfold ValidateToken
    cases hr : refreshJWKS v now fetch with
    | error msg => rfl
    | ok v' =>
      unfold parseWithClaims
      simp only [halg]
      rfl

/-- C7 witness: a concrete HS256 token is rejected even though its
signature predicate accepts every key. -/
theorem non_rsa_alg_rejected_witness :
    (ValidateToken ⟨"aud", ["iss"], some [("k1", .ok 7)], 0⟩
      ⟨Alg.HS256, some "k1", fun _ => true,
        ⟨"iss", ["aud"], some 10000, "g", "r", "p", "j"⟩⟩
      100 (.ok [("k1", .ok 7)])).isOk = false :=
  (non_rsa_alg_rejected ⟨"aud", ["iss"], some [("k1", .ok 7)], 0⟩
    ⟨Alg.HS256, some "k1", fun _ => true,
      ⟨"iss", ["aud"], some 10000, "g", "r", "p", "j"⟩⟩
    100 (.ok [("k1", .ok 7)]) rfl).1

/-- C6 counterexample: with a previously fetched key set cached but stale
(fetched at time 0, queried at time 4000 > 3600) and a failing refresh,
validation is aborted by the refresh failure even though parsing against the
stale cached set would have succeeded. -/
theorem stale_keyset_counterexample :
    ValidateToken ⟨"aud", ["iss"], some [("k1", .ok 7)], 0⟩
        ⟨Alg.RS256, some "k1", fun _ => true,
          ⟨"iss", ["aud"], some 10000, "g", "r", "p", "j"⟩⟩
        4000 (.error "connection refused") =
      .error (.refreshFailed "failed to fetch JWKS: connection refused") ∧
    parseWithClaims
        ⟨Alg.RS256, some "k1", fun _ => true,
          ⟨"iss", ["aud"], some 10000, "g", "r", "p", "j"⟩⟩
        [("k1", .ok 7)] 4000 =
      .ok ⟨"iss", ["aud"], some 10000, "g", "r", "p", "j"⟩ :=
  ⟨rfl, rfl⟩

/-- C6 (amended): whenever a refresh is attempted (no cached set, or the
cached set is older than one hour) and the fetch fails, the calling
validation fails with the refresh error — even when a previously fetched
set exists; only a cached set within the freshness window avoids the
refresh, in which case the fetch outcome is irrelevant. -/
theorem refresh_failure_fatal (v : ValidatorState) (tok : Token) (now : ℤ) :
    (∀ msg, needsRefresh v now = true →
      ValidateToken v tok now (.error msg) =
        .error (.refreshFailed ("failed to fetch JWKS: " ++ msg))) ∧
    (needsRefresh v now = false →
      ∀ f g : Except String KeySet,
        ValidateToken v tok now f = ValidateToken v tok now g) := by
  constructor
  · intro msg hneed
    unfold ValidateToken refreshJWKS
    rw [hneed]
    simp
  · intro hneed f g
    unfold ValidateToken refreshJWKS
    rw [hneed]
    simp

/-- C6 witness: both clauses of `refresh_failure_fatal` at concrete
validator states. -/
theorem refresh_failure_fatal_witness :
    ValidateToken ⟨"aud", ["iss"], some [("k1", .ok 7)], 0⟩
        ⟨Alg.RS256, some "k1", fun _ => true,
          ⟨"iss", ["aud"], some 10000, "g", "r", "p", "j"⟩⟩
        5000 (.error "boom") =
      .error (.refreshFailed "failed to fetch JWKS: boom") ∧
    ValidateToken ⟨"aud", ["iss"], some [("k1", .ok 7)], 0⟩
        ⟨Alg.RS256, some "k1", fun _ => true,
          ⟨"iss", ["aud"], some 10000, "g", "r", "p", "j"⟩⟩
        100 (.error "boom") =
      ValidateToken ⟨"aud", ["iss"], some [("k1", .ok 7)], 0⟩
        ⟨Alg.RS256, some "k1", fun _ => true,
          ⟨"iss", ["aud"], some 10000, "g", "r", "p", "j"⟩⟩
        100 (.ok []) :=
  ⟨(refresh_failure_fatal ⟨"aud", ["iss"], some [("k1", .ok 7)], 0⟩
      ⟨Alg.RS256, some "k1", fun _ => true,
        ⟨"iss", ["aud"], some 10000, "g", "r", "p", "j"⟩⟩ 5000).1
      "boom" (by decide),
    (refresh_failure_fatal ⟨"aud", ["iss"], some [("k1", .ok 7)], 0⟩
      ⟨Alg.RS256, some "k1", fun _ => true,
        ⟨"iss", ["aud"], some 10000, "g", "r", "p", "j"⟩⟩ 100).2
      (by decide) (.error "boom") (.ok [])⟩

/-- Helper: a successful `CreateRobotAccount` always reports expiry
`now + ttlMinutes` minutes, whatever was submitted to the registry. -/
theorem createRobotAccount_ok_expiry (gp : Except String Project)
    (post : CreateRobotRequest → Except String RegistryReply)
    (pn rn p : String) (ttl : ℕ) (now : ℤ) (robot : Robot)
    (h : CreateRobotAccount gp post pn rn p ttl now = .ok robot) :
    robot.expiresAt = now + (ttl : ℤ) * 60 := by
  unfold CreateRobotAccount at h
  cases gp with
  | error e => simp at h
  | ok proj =>
    simp only at h
    cases hp : post (buildRobotRequest pn rn p ttl) with
    | error e => rw [hp] at h; simp at h
    | ok reply =>
      rw [hp] at h
      simp only [Except.ok.injEq] at h
      rw [← h]

/-- Helper: under a POST with a well-formed Bearer header, a failed token
validation produces exactly the fixed unauthenticated response, no audit
records, and the verifier marked invoked. -/
theorem handleToken_authfail (env : Env) (r : HttpRequest) (e : JwtError)
    (hm : r.method = "POST")
    (hb : trimBearer r.authHeader ≠ r.authHeader)
    (hv : env.validate (trimBearer r.authHeader) = .error e) :
    HandleToken env r = ⟨401, .err "invalid or expired token", [], true⟩ := by
  have hne : r.authHeader ≠ "" := by
    intro h0
    rw [h0] at hb
    exact hb (by decide)
  unfold HandleToken
  rw [if_neg (by simp [hm]), if_neg hne, if_neg hb, hv]


/-- C10: for every successful mint, the reported expiry equals the mint-time
instant plus the configured TTL in minutes — both at the Harbor client and
in the expiry the handler places into the credential response — independent
of the day-granularity duration submitted to the registry. -/
theorem reported_expiry_from_minutes :
    (∀ (gp : Except String Project)
        (post : CreateRobotRequest → Except String RegistryReply)
        (pn rn p : String) (ttl : ℕ) (now : ℤ) (robot : Robot),
      CreateRobotAccount gp post pn rn p ttl now = .ok robot →
      robot.expiresAt = now + (ttl : ℤ) * 60) ∧
    (∀ (va : String → Except JwtError Claims)
        (au : String → String → String → Except String Unit)
        (gp : Except String Project)
        (post : CreateRobotRequest → Except String RegistryReply)
        (mintNow : ℤ) (ttl0 : ℕ) (n0 : ℤ) (r : HttpRequest)
        (u pwd : String) (expiry : ℤ),
      (HandleToken
          ⟨va, au,
            fun proj name perm ttl => CreateRobotAccount gp post proj name perm ttl mintNow,
            ttl0, n0⟩ r).body = .token u pwd expiry →
      expiry = mintNow + (ttl0 : ℤ) * 60) := by
  refine ⟨createRobotAccount_ok_expiry, ?_⟩
  intro va au gp post mintNow ttl0 n0 r u pwd expiry h
  unfold HandleToken at h
  dsimp only at h
  by_cases h1 : r.method ≠ "POST"
  · rw [if_pos h1] at h; simp at h
  · rw [if_neg h1] at h
    by_cases h2 : r.authHeader = ""
    · rw [if_pos h2] at h; simp at h
    · rw [if_neg h2] at h
      by_cases h3 : trimBearer r.authHeader = r.authHeader
      · rw [if_pos h3] at h; simp at h
      · rw [if_neg h3] at h
        cases hval : va (trimBearer r.authHeader) with
        | error e => rw [hval] at h; simp at h
        | ok claims =>
          rw [hval] at h
          dsimp only at h
          cases hb : r.body with
          | none => rw [hb] at h; simp at h
          | some req =>
            rw [hb] at h
            dsimp only at h
            by_cases h4 : req.harborProject = ""
            · rw [if_pos h4] at h; simp at h
            · rw [if_neg h4] at h
              by_cases h5 : req.permissions = ""
              · rw [if_pos h5] at h; simp at h
              · rw [if_neg h5] at h
                cases hvp : ValidatePermission req.permissions with
                | error msg => rw [hvp] at h; simp at h
                | ok u0 =>
                  rw [hvp] at h
                  dsimp only at h
                  cases hau : au claims.projectPath req.harborProject req.permissions with
                  | error reason => rw [hau] at h; simp at h
                  | ok u1 =>
                    rw [hau] at h
                    dsimp only at h
                    cases hmint : CreateRobotAccount gp post req.harborProject
                        ("ci-temp-" ++ claims.jobID ++ "-" ++ toString n0)
                        req.permissions ttl0 mintNow with
                    | error e => rw [hmint] at h; simp at h
                    | ok robot =>
                      rw [hmint] at h
                      simp only [RespBody.token.injEq] at h
                      rw [← h.2.2]
                      exact createRobotAccount_ok_expiry _ _ _ _ _ _ _ _ hmint

/-- C1: the audit records written by one `HandleToken` run match its
terminal outcome exactly: a policy denial (403) writes exactly one denied
record, a successful mint (200) exactly one issued record, and an
unauthenticated rejection (401) or a mint failure (500) none. -/
theorem audit_matches_outcome (env : Env) (r : HttpRequest) :
    ((HandleToken env r).status = 403 →
      ((HandleToken env r).audits).map AuditRecord.kind = [RecKind.denied]) ∧
    ((HandleToken env r).status = 200 →
      ((HandleToken env r).audits).map AuditRecord.kind = [RecKind.issued]) ∧
    ((HandleToken env r).status = 401 ∨ (HandleToken env r).status = 500 →
      (HandleToken env r).audits = []) := by
  unfold HandleToken
  repeat' split
  all_goals refine ⟨fun h => ?_, fun h => ?_, fun h => ?_⟩
  all_goals first
    | rfl
    | simp at h

/-- C1 witness: a concrete policy-denied run writes exactly one denied
record, and a concrete unauthenticated run writes none. -/
theorem audit_matches_outcome_witness :
    ((HandleToken
        ⟨fun _ => .ok ⟨"iss", ["aud"], some 10, "g", "r", "p", "j"⟩,
          fun _ _ _ => .error "denied", fun _ _ _ _ => .error "x", 60, 0⟩
        ⟨"POST", "Bearer t", some ⟨"proj", "read"⟩⟩).audits).map
      AuditRecord.kind = [RecKind.denied] ∧
    (HandleToken
        ⟨fun _ => .error .badSignature,
          fun _ _ _ => .ok (), fun _ _ _ _ => .error "x", 60, 0⟩
        ⟨"POST", "Bearer t", some ⟨"proj", "read"⟩⟩).audits = [] :=
  ⟨(audit_matches_outcome
      ⟨fun _ => .ok ⟨"iss", ["aud"], some 10, "g", "r", "p", "j"⟩,
        fun _ _ _ => .error "denied", fun _ _ _ _ => .error "x", 60, 0⟩
      ⟨"POST", "Bearer t", some ⟨"proj", "read"⟩⟩).1 (by decide),
    (audit_matches_outcome
      ⟨fun _ => .error .badSignature,
        fun _ _ _ => .ok (), fun _ _ _ _ => .error "x", 60, 0⟩
      ⟨"POST", "Bearer t", some ⟨"proj", "read"⟩⟩).2.2 (Or.inl (by decide))⟩

/-- C10 witness: a concrete successful mint with TTL 90 minutes at instant
1000 reports expiry 6400 = 1000 + 90·60, although the submitted registry
duration was 1 day. -/
theorem reported_expiry_from_minutes_witness :
    (⟨5, "rname", "s3cret", 6400⟩ : Robot).expiresAt = 1000 + (90 : ℤ) * 60 :=
  reported_expiry_from_minutes.1 (.ok ⟨1, "proj"⟩)
    (fun _ => .ok ⟨5, "rname", "s3cret"⟩) "proj" "rname" "read" 90 1000
    ⟨5, "rname", "s3cret", 6400⟩ rfl

/-- C2: the audit records written by `HandleToken` never depend on the
minted credential's secret: two runs whose collaborators agree except
possibly in the secret of the minting outcome — under every outcome of the
minting call — write identical audit records. -/
theorem audits_independent_of_secret (env₁ env₂ : Env) (r : HttpRequest)
    (hv : env₁.validate = env₂.validate)
    (ha : env₁.authorize = env₂.authorize)
    (ht : env₁.robotTTL = env₂.robotTTL)
    (hn : env₁.now = env₂.now)
    (hm : ∀ proj name perm ttl,
      secretErased (env₁.mint proj name perm ttl) =
        secretErased (env₂.mint proj name perm ttl)) :
    (HandleToken env₁ r).audits = (HandleToken env₂ r).audits := by
  obtain ⟨va₁, au₁, m₁, t₁, n₁⟩ := env₁
  obtain ⟨va₂, au₂, m₂, t₂, n₂⟩ := env₂
  dsimp only at hv ha ht hn hm
  subst hv ha ht hn
  unfold HandleToken
  dsimp only
  by_cases h1 : r.method ≠ "POST"
  · rw [if_pos h1, if_pos h1]
  · rw [if_neg h1, if_neg h1]
    by_cases h2 : r.authHeader = ""
    · rw [if_pos h2, if_pos h2]
    · rw [if_neg h2, if_neg h2]
      by_cases h3 : trimBearer r.authHeader = r.authHeader
      · rw [if_pos h3, if_pos h3]
      · rw [if_neg h3, if_neg h3]
        cases hval : va₁ (trimBearer r.authHeader) with
        | error e => rfl
        | ok claims =>
          cases hb : r.body with
          | none => rfl
          | some req =>
            dsimp only
            by_cases h4 : req.harborProject = ""
            · rw [if_pos h4, if_pos h4]
            · rw [if_neg h4, if_neg h4]
              by_cases h5 : req.permissions = ""
              · rw [if_pos h5, if_pos h5]
              · rw [if_neg h5, if_neg h5]
                cases hvp : ValidatePermission req.permissions with
                | error msg => rfl
                | ok u0 =>
                  cases hau : au₁ claims.projectPath req.harborProject req.permissions with
                  | error reason => rfl
                  | ok u1 =>
                    have hmx := hm req.harborProject
                      ("ci-temp-" ++ claims.jobID ++ "-" ++ toString n₁)
                      req.permissions t₁
                    cases hm1 : m₁ req.harborProject
                        ("ci-temp-" ++ claims.jobID ++ "-" ++ toString n₁)
                        req.permissions t₁ with
                    | error e1 =>
                      cases hm2 : m₂ req.harborProject
                          ("ci-temp-" ++ claims.jobID ++ "-" ++ toString n₁)
                          req.permissions t₁ with
                      | error e2 => rfl
                      | ok rb2 =>
                        rw [hm1, hm2] at hmx
                        simp [secretErased] at hmx
                    | ok rb1 =>
                      cases hm2 : m₂ req.harborProject
                          ("ci-temp-" ++ claims.jobID ++ "-" ++ toString n₁)
                          req.permissions t₁ with
                      | error e2 =>
                        rw [hm1, hm2] at hmx
                        simp [secretErased] at hmx
                      | ok rb2 =>
                        rw [hm1, hm2] at hmx
                        simp only [secretErased, eraseSecret,
                          Except.ok.injEq, Robot.mk.injEq] at hmx
                        obtain ⟨hid, hname, -, hexp⟩ := hmx
                        dsimp only
                        rw [hid, hname, hexp]

/-- C2 witness: two concrete runs that differ only in the secret returned
by the registry write the same single issued audit record. -/
theorem audits_independent_of_secret_witness :
    (HandleToken
        ⟨fun _ => .ok ⟨"iss", ["aud"], some 10, "g", "r", "p", "j"⟩,
          fun _ _ _ => .ok (), fun _ _ _ _ => .ok ⟨5, "rn", "secretA", 99⟩, 60, 0⟩
        ⟨"POST", "Bearer t", some ⟨"proj", "read"⟩⟩).audits =
      (HandleToken
        ⟨fun _ => .ok ⟨"iss", ["aud"], some 10, "g", "r", "p", "j"⟩,
          fun _ _ _ => .ok (), fun _ _ _ _ => .ok ⟨5, "rn", "secretB", 99⟩, 60, 0⟩
        ⟨"POST", "Bearer t", some ⟨"proj", "read"⟩⟩).audits :=
  audits_independent_of_secret
    ⟨fun _ => .ok ⟨"iss", ["aud"], some 10, "g", "r", "p", "j"⟩,
      fun _ _ _ => .ok (), fun _ _ _ _ => .ok ⟨5, "rn", "secretA", 99⟩, 60, 0⟩
    ⟨fun _ => .ok ⟨"iss", ["aud"], some 10, "g", "r", "p", "j"⟩,
      fun _ _ _ => .ok (), fun _ _ _ _ => .ok ⟨5, "rn", "secretB", 99⟩, 60, 0⟩
    ⟨"POST", "Bearer t", some ⟨"proj", "read"⟩⟩
    rfl rfl rfl rfl (fun _ _ _ _ => rfl)

/-- C4 counterexample: a malformed request body (empty scope and
permission) together with an invalid bearer token is rejected as
unauthenticated (401) with the verifier invoked — not as a bad request
(400) without invoking the verifier, as the claim states. -/
theorem malformed_input_counterexample :
    (HandleToken
        ⟨fun _ => .error .badSignature, fun _ _ _ => .ok (),
          fun _ _ _ _ => .error "x", 60, 0⟩
        ⟨"POST", "Bearer t", some ⟨"", ""⟩⟩).status = 401 ∧
    (HandleToken
        ⟨fun _ => .error .badSignature, fun _ _ _ => .ok (),
          fun _ _ _ _ => .error "x", 60, 0⟩
        ⟨"POST", "Bearer t", some ⟨"", ""⟩⟩).verifierInvoked = true ∧
    (HandleToken
        ⟨fun _ => .error .badSignature, fun _ _ _ => .ok (),
          fun _ _ _ _ => .error "x", 60, 0⟩
        ⟨"POST", "Bearer t", some ⟨"", ""⟩⟩).status ≠ 400 := by
  refine ⟨rfl, rfl, by decide⟩

/-- C4 (amended): the token verifier always runs before input validation:
under a POST with a Bearer header, an invalid token yields a 401 rejection
(even for malformed input), and malformed input yields a 400 rejection only
after the verifier has been invoked and succeeded. -/
theorem malformed_after_verifier (env : Env) (r : HttpRequest)
    (hmethod : r.method = "POST")
    (hbearer : trimBearer r.authHeader ≠ r.authHeader) :
    ((∃ e, env.validate (trimBearer r.authHeader) = .error e) →
      (HandleToken env r).status = 401 ∧
      (HandleToken env r).verifierInvoked = true) ∧
    (∀ c, env.validate (trimBearer r.authHeader) = .ok c →
      malformedBody r.body = true →
      (HandleToken env r).status = 400 ∧
      (HandleToken env r).verifierInvoked = true) := by
  constructor
  · rintro ⟨e, he⟩
    rw [handleToken_authfail env r e hmethod hbearer he]
    exact ⟨rfl, rfl⟩
  · intro c hok hmal
    have hne : r.authHeader ≠ "" := by
      intro h0
      rw [h0] at hbearer
      exact hbearer (by decide)
    unfold HandleToken
    rw [if_neg (by simp [hmethod]), if_neg hne, if_neg hbearer, hok]
    cases hb : r.body with
    | none => exact ⟨rfl, rfl⟩
    | some req =>
      rw [hb] at hmal
      dsimp only
      by_cases h4 : req.harborProject = ""
      · rw [if_pos h4]
        exact ⟨rfl, rfl⟩
      · rw [if_neg h4]
        by_cases h5 : req.permissions = ""
        · rw [if_pos h5]
          exact ⟨rfl, rfl⟩
        · rw [if_neg h5]
          cases hvp : ValidatePermission req.permissions with
          | error msg => exact ⟨rfl, rfl⟩
          | ok u =>
            exfalso
            simp [malformedBody, h4, h5, hvp, Except.isOk, Except.toBool] at hmal

/-- C4 witness: both clauses of `malformed_after_verifier` at a concrete
malformed request, once with an invalid and once with a valid token. -/
theorem malformed_after_verifier_witness :
    (HandleToken
        ⟨fun _ => .error .expired, fun _ _ _ => .ok (),
          fun _ _ _ _ => .error "x", 60, 0⟩
        ⟨"POST", "Bearer t", some ⟨"", ""⟩⟩).status = 401 ∧
    (HandleToken
        ⟨fun _ => .ok ⟨"iss", ["aud"], some 10, "g", "r", "p", "j"⟩,
          fun _ _ _ => .ok (), fun _ _ _ _ => .error "x", 60, 0⟩
        ⟨"POST", "Bearer t", some ⟨"", ""⟩⟩).status = 400 :=
  ⟨((malformed_after_verifier
      ⟨fun _ => .error .expired, fun _ _ _ => .ok (),
        fun _ _ _ _ => .error "x", 60, 0⟩
      ⟨"POST", "Bearer t", some ⟨"", ""⟩⟩ rfl (by decide)).1
      ⟨.expired, rfl⟩).1,
    ((malformed_after_verifier
      ⟨fun _ => .ok ⟨"iss", ["aud"], some 10, "g", "r", "p", "j"⟩,
        fun _ _ _ => .ok (), fun _ _ _ _ => .error "x", 60, 0⟩
      ⟨"POST", "Bearer t", some ⟨"", ""⟩⟩ rfl (by decide)).2
      ⟨"iss", ["aud"], some 10, "g", "r", "p", "j"⟩ rfl (by decide)).1⟩

/-- C8: any two requests whose token verification fails — for any two
failure reasons — receive the identical caller-facing response: status 401
with the fixed body "invalid or expired token" (and no audit records), so
the response does not reveal which verification check failed. -/
theorem uniform_unauthenticated_response (env₁ env₂ : Env)
    (r₁ r₂ : HttpRequest) (e₁ e₂ : JwtError)
    (hm1 : r₁.method = "POST")
    (hb1 : trimBearer r₁.authHeader ≠ r₁.authHeader)
    (hv1 : env₁.validate (trimBearer r₁.authHeader) = .error e₁)
    (hm2 : r₂.method = "POST")
    (hb2 : trimBearer r₂.authHeader ≠ r₂.authHeader)
    (hv2 : env₂.validate (trimBearer r₂.authHeader) = .error e₂) :
    (HandleToken env₁ r₁).status = 401 ∧
    (HandleToken env₁ r₁).body = .err "invalid or expired token" ∧
    HandleToken env₁ r₁ = HandleToken env₂ r₂ := by
  rw [handleToken_authfail env₁ r₁ e₁ hm1 hb1 hv1,
    handleToken_authfail env₂ r₂ e₂ hm2 hb2 hv2]
  exact ⟨rfl, rfl, rfl⟩

/-- C8 witness: a bad-signature failure and an expired-token failure at
different requests yield literally the same response. -/
theorem uniform_unauthenticated_response_witness :
    HandleToken
        ⟨fun _ => .error .badSignature, fun _ _ _ => .ok (),
          fun _ _ _ _ => .error "x", 60, 0⟩
        ⟨"POST", "Bearer tokenA", some ⟨"proj", "read"⟩⟩ =
      HandleToken
        ⟨fun _ => .error .expired, fun _ _ _ => .ok (),
          fun _ _ _ _ => .error "y", 30, 5⟩
        ⟨"POST", "Bearer tokenB", Option.none⟩ :=
  (uniform_unauthenticated_response
    ⟨fun _ => .error .badSignature, fun _ _ _ => .ok (),
      fun _ _ _ _ => .error "x", 60, 0⟩
    ⟨fun _ => .error .expired, fun _ _ _ => .ok (),
      fun _ _ _ _ => .error "y", 30, 5⟩
    ⟨"POST", "Bearer tokenA", some ⟨"proj", "read"⟩⟩
    ⟨"POST", "Bearer tokenB", Option.none⟩
    .badSignature .expired rfl (by decide) rfl rfl (by decide) rfl).2.2

end Broker
